import Mathlib

/-!
Shallow embedding of the task-management core of the `cybermax-web` repository:
the Task record, the local-storage Persistence Port adapters, the use cases,
the TaskProvider synchronizer (cache + pending set + reconciliation), and the
deadline/status derivation helpers.  Each definition is translated from the
TypeScript source; timestamps and calendar days are modelled as integers,
thrown exceptions as `Except String`, and the Persistence Port invocations as
an explicit call trace.  Everything lives in the `Cybermax` namespace because
`Task` is already taken by the Lean core library.
-/

namespace Cybermax

/-- The Task entity (class `Task` in `entities/Task`, merged with its
serialised form `ITask`): `description` defaults to the empty string, the
optional fields are `Option`s, and the two timestamps are abstract instants. -/
structure Task where
  id : String
  title : String
  description : String := ""
  completed : Bool := false
  createdAt : Int := 0
  updatedAt : Int := 0
  pic : Option String := none
  startDate : Option String := none
  endDate : Option String := none
deriving Repr, DecidableEq

/-! ## Calendar-day arithmetic

`new Date("YYYY-MM-DD")` followed by `setHours(0,0,0,0)` reduces a date string
to a calendar day; we model a day as its serial number (days from a fixed
civil epoch, Hinnant's days-from-civil formula restricted to `Nat`).  A string
that V8 rejects (`isNaN(date.getTime())`) is modelled as a parse failure. -/

def isLeap (y : Nat) : Bool :=
  (y % 4 == 0 && y % 100 != 0) || (y % 400 == 0)

def daysInMonth (y m : Nat) : Nat :=
  if m = 2 then (if isLeap y then 29 else 28)
  else if m = 4 ∨ m = 6 ∨ m = 9 ∨ m = 11 then 30
  else 31

/-- Serial day number of the civil date `y-m-d` (valid for `y ≥ 1`); only
differences of day numbers are ever used, so the epoch offset is dropped. -/
def daysFromCivil (y m d : Nat) : Nat :=
  let y1 := if m ≤ 2 then y - 1 else y
  let era := y1 / 400
  let yoe := y1 % 400
  let mp := (m + 9) % 12
  let doy := (153 * mp + 2) / 5 + d - 1
  let doe := yoe * 365 + yoe / 4 - yoe / 100 + doy
  era * 146097 + doe

/-- Splitting a character list at every dash, as `s.split("-")` does. -/
def splitDash : List Char → List (List Char)
  | [] => [[]]
  | c :: rest =>
    let r := splitDash rest
    if c = '-' then [] :: r
    else
      match r with
      | [] => [[c]]
      | h :: t => (c :: h) :: t

def digitsToNat? (cs : List Char) : Option Nat :=
  if cs.length > 0 && cs.all Char.isDigit then
    some (cs.foldl (fun a c => a * 10 + (c.toNat - 48)) 0)
  else none

/-- Parsing of a date-only ISO string `YYYY-MM-DD`, the format produced by the
date inputs of the form; any other string is rejected, as `new Date(...)` +
`isNaN(getTime())` rejects a malformed date-only string. -/
def parseISODate (s : String) : Option Nat :=
  match splitDash s.toList with
  | [ys, ms, ds] =>
    if ys.length = 4 && ms.length = 2 && ds.length = 2 then
      match digitsToNat? ys, digitsToNat? ms, digitsToNat? ds with
      | some y, some m, some d =>
        if 1 ≤ m && m ≤ 12 && 1 ≤ d && d ≤ daysInMonth y m then
          some (daysFromCivil y m d)
        else none
      | _, _, _ => none
    else none
  | _ => none

/-- `TaskStatusInfo` from `entities/Task`: badge kind plus display text. -/
structure TaskStatusInfo where
  type : String
  text : String
deriving Repr, DecidableEq

/-- `DeadlineInfo` from `entities/Task`. -/
structure DeadlineInfo where
  daysRemaining : Int
  isOverdue : Bool
  isToday : Bool
  isTomorrow : Bool
  status : TaskStatusInfo
deriving Repr, DecidableEq

/-- `taskStatusUtils.getDeadlineInfo` (task utils module): `today` is the
current calendar day already truncated to midnight.  A missing or empty
`endDate` yields `none`; an unparsable `endDate` yields `none`. -/
def getDeadlineInfo (today : Nat) (task : Task) : Option DeadlineInfo :=
  match task.endDate with
  | none => none
  | some s =>
    if s = "" then none
    else
      match parseISODate s with
      | none => none
      | some endDay =>
        let daysRemaining : Int := (endDay : Int) - (today : Int)
        let isOverdue := daysRemaining < 0
        let isToday := daysRemaining = 0
        let isTomorrow := daysRemaining = 1
        let status : TaskStatusInfo :=
          if task.completed then ⟨"success", "Completed"⟩
          else if isOverdue then
            let overdueDays := -daysRemaining
            if overdueDays = 1 then ⟨"danger", "Overdue by 1 day"⟩
            else ⟨"danger", s!"Overdue by {overdueDays} days"⟩
          else if isToday then ⟨"warning", "Due today"⟩
          else if isTomorrow then ⟨"warning", "Due tomorrow"⟩
          else if daysRemaining ≤ 3 then ⟨"warning", s!"Due in {daysRemaining} days"⟩
          else if daysRemaining ≤ 7 then ⟨"info", s!"{daysRemaining} days remaining"⟩
          else ⟨"secondary", s!"{daysRemaining} days remaining"⟩
        some ⟨daysRemaining, isOverdue, isToday, isTomorrow, status⟩

/-- `getDeadlineStatus` in `TaskItem.tsx`: unlike `getDeadlineInfo`, an
unparsable `endDate` yields the `Invalid date` warning badge, and the
`completed` check comes after that validity check. -/
def getDeadlineStatus (today : Nat) (task : Task) : Option TaskStatusInfo :=
  match task.endDate with
  | none => none
  | some s =>
    if s = "" then none
    else
      match parseISODate s with
      | none => some ⟨"warning", "Invalid date"⟩
      | some endDay =>
        let diffDays : Int := (endDay : Int) - (today : Int)
        if task.completed then some ⟨"success", "Completed"⟩
        else if diffDays < 0 then
          let overdueDays := -diffDays
          if overdueDays = 1 then some ⟨"danger", "1 day overdue"⟩
          else some ⟨"danger", s!"{overdueDays} days overdue"⟩
        else if diffDays = 0 then some ⟨"warning", "Due today"⟩
        else if diffDays ≤ 3 then
          if diffDays = 1 then some ⟨"warning", "Due tomorrow"⟩
          else some ⟨"warning", s!"Due in {diffDays} days"⟩
        else some ⟨"info", s!"Due in {diffDays} days"⟩

/-- The day the deadline-classification test fixes as the current date. -/
def day20240610 : Nat := daysFromCivil 2024 6 10

example : parseISODate "2024-06-09" = some (day20240610 - 1) := by decide
example : parseISODate "2024-06-11" = some (day20240610 + 1) := by decide
example : parseISODate "2024-13-01" = none := by decide
example : parseISODate "2024-02-30" = none := by decide
example : parseISODate "garbage" = none := by decide

/-! ## Persistence Port adapters

Durable storage is the JSON array held under the `tasks` local-storage key,
modelled as `List Task`.  Adapter methods return the new storage contents
together with an `Except` for a thrown error.  The repository contains two
local-storage adapters: the enhanced one (with stored-data validation and
explicit `DuplicateId` / `NotFound` failures) and the plain one (no checks).
Write failures (quota) are not injected here: the claims about the adapters
concern their id checks, which happen before any write. -/

/-- The stored-entry validation filter of the enhanced adapter
(`safeReadStorage`): an entry must have a truthy `id` and `title` (its
`completed` field is a boolean by typing). -/
def validItask (t : Task) : Bool :=
  !(t.id == "") && !(t.title == "")

namespace EnhancedRepo

/-- `safeReadStorage`: returns the validated entries and the storage contents
after the self-heal write-back (performed only when entries were dropped). -/
def safeReadStorage (storage : List Task) : List Task × List Task :=
  let validated := storage.filter validItask
  (validated, if validated.length ≠ storage.length then validated else storage)

/-- `LocalStorageTaskRepository.findAll` (enhanced adapter): the validated
entries, with the possibly self-healed storage. -/
def findAll (storage : List Task) : List Task × List Task :=
  safeReadStorage storage

/-- `LocalStorageTaskRepository.findById` (enhanced adapter): a falsy id
returns `null` before any read. -/
def findById (storage : List Task) (id : String) : List Task × Option Task :=
  if id = "" then (storage, none)
  else
    let r := safeReadStorage storage
    (r.2, r.1.find? (fun t => t.id == id))

/-- `LocalStorageTaskRepository.create` (enhanced adapter): fails when a
record with the same id already exists, otherwise appends the record to the
validated entries and persists. -/
def create (storage : List Task) (task : Task) : List Task × Except String Task :=
  if task.id = "" then (storage, .error "Invalid task provided for creation")
  else
    let r := safeReadStorage storage
    if r.1.any (fun t => t.id == task.id) then
      (r.2, .error ("Task with ID " ++ task.id ++ " already exists"))
    else
      (r.1 ++ [task], .ok task)

/-- `LocalStorageTaskRepository.delete` (enhanced adapter): fails when no
record with the id exists, otherwise filters it out and persists. -/
def delete (storage : List Task) (id : String) : List Task × Except String Unit :=
  if id = "" then (storage, .error "Invalid task ID provided for deletion")
  else
    let r := safeReadStorage storage
    if r.1.any (fun t => t.id == id) then
      (r.1.filter (fun t => !(t.id == id)), .ok ())
    else
      (r.2, .error ("Task with ID " ++ id ++ " not found for deletion"))

end EnhancedRepo

namespace SimpleRepo

/-- `LocalStorageTaskRepository.create` (plain adapter): reads, pushes,
saves — no duplicate-id check, so the method never rejects. -/
def create (storage : List Task) (task : Task) : Except String (List Task × Task) :=
  .ok (storage ++ [task], task)

/-- `LocalStorageTaskRepository.delete` (plain adapter): filters the id out
and saves — no existence check, so the method never rejects. -/
def delete (storage : List Task) (id : String) : Except String (List Task) :=
  .ok (storage.filter (fun t => !(t.id == id)))

end SimpleRepo

/-- `CreateTaskParams` of `CreateTaskUseCase`. -/
structure CreateTaskParams where
  title : String
  description : Option String := none
  completed : Option Bool := none
  pic : Option String := none
  startDate : Option String := none
  endDate : Option String := none
deriving Repr, DecidableEq

/-- `Task.create` (entity class): stamps the fresh id and both timestamps;
`description` defaults to the empty string, `completed` to false.  No field
is validated. -/
def Task.create (freshId : String) (now : Int) (params : CreateTaskParams) : Task :=
  { id := freshId
    title := params.title
    description := params.description.getD ""
    completed := params.completed.getD false
    createdAt := now
    updatedAt := now
    pic := params.pic
    startDate := params.startDate
    endDate := params.endDate }

/-- `CreateTaskUseCase.execute` against the enhanced local-storage adapter:
builds the record with `Task.create` and hands it straight to the Persistence
Port — there is no invariant validation on this path. -/
def createTaskUseCaseExecute (storage : List Task) (freshId : String) (now : Int)
    (params : CreateTaskParams) : List Task × Except String Task :=
  EnhancedRepo.create storage (Task.create freshId now params)

/-! ## The Task Synchronizer (`TaskProvider.tsx`)

The provider is written against the `ITaskRepository` interface; during one
synchronizer operation the backing storage is mutated only by that operation,
so the port is modelled by the results its methods deliver for the duration of
the call.  Every port invocation is recorded in a trace (`PortCall`), which is
how "the Persistence Port is (not) invoked" is stated.  The PDF generator
invocation is recorded in the same trace. -/

/-- One observable invocation of an external collaborator. -/
inductive PortCall where
  | findAll
  | findById (id : String)
  | update (task : Task)
  | pdf (tasks : List Task)
deriving Repr, DecidableEq

/-- The Persistence Port as seen by the provider for the duration of one
operation: the results of `getTasksUseCase.execute()` (a plain `findAll`),
`findById` and `update`. -/
structure Port where
  findAll : Except String (List Task)
  findById : String → Except String (Option Task)
  update : Task → Except String Task

/-- The React state owned by `TaskProvider`: the `tasks` cache, the `loading`
flag, the last surfaced `error`, the `pendingOperations` ref (a `Set` of ids)
and the `isInitialized` ref. -/
structure ProviderState where
  tasks : List Task
  loading : Bool := false
  error : Option String := none
  pending : List String := []
  initialized : Bool := true
deriving Repr, DecidableEq

/-- Result of one synchronizer operation: the final state, the trace of port
invocations, and the log of `setError` calls made along the way (`none` is
`setError(null)`).  The operation itself resolves — `toggleTask` catches every
exception, so its returned promise never rejects, which is why this record has
no error channel. -/
structure OpResult where
  state : ProviderState
  calls : List PortCall
  errorLog : List (Option String)
deriving Repr, DecidableEq

/-- `fetchTasks`: clears the error, re-reads the full set and replaces the
cache wholesale; a read failure is caught and recorded as the fetch error.
Never throws. -/
def fetchTasks (port : Port) (s : ProviderState) : OpResult :=
  let s1 : ProviderState := { s with loading := true, error := none }
  match port.findAll with
  | .ok ts =>
    { state := { s1 with tasks := ts, initialized := true, loading := false }
      calls := [.findAll]
      errorLog := [none] }
  | .error _ =>
    { state := { s1 with error := some "Failed to fetch tasks", loading := false }
      calls := [.findAll]
      errorLog := [none, some "Failed to fetch tasks"] }

/-- `validateConsistency` (the spec's `reconcile()`): compares cached ids with
a fresh read; on any one-sided id the cache is replaced wholesale.  Returns
the new state, the value returned to the caller (`none` models the `undefined`
of the early uninitialized return), and the trace. -/
def validateConsistency (port : Port) (s : ProviderState) :
    ProviderState × Option (List Task) × List PortCall :=
  if s.initialized = false then (s, none, [])
  else
    match port.findAll with
    | .error _ => (s, some s.tasks, [.findAll])
    | .ok stored =>
      let currentTaskIds := s.tasks.map (fun t => t.id)
      let storedTaskIds := stored.map (fun t => t.id)
      let hasNewTasks := stored.any (fun t => !(currentTaskIds.contains t.id))
      let hasRemovedTasks := s.tasks.any (fun t => !(storedTaskIds.contains t.id))
      if hasNewTasks || hasRemovedTasks then
        ({ s with tasks := stored }, some stored, [.findAll])
      else
        (s, some s.tasks, [.findAll])

/-- The update parameters accepted by `UpdateTaskUseCase.execute`. -/
structure UpdateParams where
  title : Option String := none
  description : Option String := none
  completed : Option Bool := none
  pic : Option String := none
  startDate : Option String := none
  endDate : Option String := none
deriving Repr, DecidableEq

/-- `UpdateTaskUseCase.execute` (the change-detecting variant): looks the task
up, applies each supplied parameter to a copy only when it differs from the
current value (stamping `updatedAt`), and calls the port `update` only when
some field actually changed; otherwise the original task is returned as-is.
The trailing catch rethrows `Error`s unchanged. -/
def updateTaskExecute (port : Port) (now : Int) (id : String) (params : UpdateParams) :
    Except String Task × List PortCall :=
  match port.findById id with
  | .error e => (.error e, [.findById id])
  | .ok none =>
    -- the debugging `findAll` runs in its own try/catch, failures ignored
    (.error ("Task with ID " ++ id ++ " not found in repository"), [.findById id, .findAll])
  | .ok (some task) =>
    let u0 : Task × Bool := (task, false)
    let u1 := match params.title with
      | some v => if v ≠ task.title then ({ u0.1 with title := v, updatedAt := now }, true) else u0
      | none => u0
    let u2 := match params.description with
      | some v =>
        if v ≠ task.description then ({ u1.1 with description := v, updatedAt := now }, true)
        else u1
      | none => u1
    let u3 := match params.completed with
      | some v =>
        if v ≠ task.completed then
          ({ u2.1 with completed := !u2.1.completed, updatedAt := now }, true)
        else u2
      | none => u2
    let u4 := match params.pic with
      | some v => if some v ≠ task.pic then ({ u3.1 with pic := some v, updatedAt := now }, true) else u3
      | none => u3
    let u5 := match params.startDate with
      | some v =>
        if some v ≠ task.startDate then ({ u4.1 with startDate := some v, updatedAt := now }, true)
        else u4
      | none => u4
    let u6 := match params.endDate with
      | some v =>
        if some v ≠ task.endDate then ({ u5.1 with endDate := some v, updatedAt := now }, true)
        else u5
      | none => u5
    if u6.2 = false then
      (.ok task, [.findById id])
    else
      match port.update u6.1 with
      | .ok result => (.ok result, [.findById id, .update u6.1])
      | .error e => (.error e, [.findById id, .update u6.1])

/-- The catch block of `toggleTask` (plus its `finally`): records the error
message, attempts one recovery `fetchTasks()` (whose own failure is only
logged), and removes the id from the pending set.  Note that the recovery
`fetchTasks` starts by `setError(null)`, resetting the error just recorded,
and nothing is rethrown. -/
def toggleCatch (port : Port) (s : ProviderState) (id : String)
    (calls : List PortCall) (log : List (Option String)) (msg : String) : OpResult :=
  let failMsg := "Failed to update task: " ++ msg
  let r := fetchTasks port { s with error := some failMsg }
  { state := { r.state with pending := r.state.pending.filter (fun x => x ≠ id) }
    calls := calls ++ r.calls
    errorLog := log ++ [some failMsg] ++ r.errorLog }

/-- Lines 156–176 of `toggleTask`: the `taskToToggle = task || tasks.find(...)`
lookup (where `tasks` is the state captured at the start of the call, `s0`),
the use-case invocation and the success-path cache update plus `finally`. -/
def toggleAfterLookup (port : Port) (now : Int) (s0 scur : ProviderState) (id : String)
    (calls : List PortCall) (log : List (Option String)) (taskFound : Option Task) : OpResult :=
  let taskToToggle := match taskFound with
    | some t => some t
    | none => s0.tasks.find? (fun t => t.id == id)
  match taskToToggle with
  | none => toggleCatch port scur id calls log ("Task with ID " ++ id ++ " not found")
  | some tt =>
    match updateTaskExecute port now id { completed := some (!tt.completed) } with
    | (.error e, uc) => toggleCatch port scur id (calls ++ uc) log e
    | (.ok updatedTask, uc) =>
      { state :=
          { scur with
            tasks := scur.tasks.map (fun t => if t.id == id then updatedTask else t)
            pending := scur.pending.filter (fun x => x ≠ id) }
        calls := calls ++ uc
        errorLog := log }

/-- `toggleTask` (the spec's `toggleCompletion`): the pending-set guard, the
consistency check, the single refresh-and-retry on a missing record, the
completion flip via `UpdateTaskUseCase`, and the catch/finally recovery. -/
def toggleTask (port : Port) (now : Int) (s : ProviderState) (id : String) : OpResult :=
  if s.pending.contains id then
    { state := s, calls := [], errorLog := [] }
  else
    let s1 : ProviderState := { s with pending := id :: s.pending }
    let log0 : List (Option String) := [none]  -- setError(null)
    let vc := validateConsistency port s1
    match vc.2.1 with
    | none =>
      -- uninitialized: `currentTasks` is undefined and `.find` throws
      toggleCatch port vc.1 id vc.2.2 log0
        "Cannot read properties of undefined (reading find)"
    | some currentTasks =>
      match currentTasks.find? (fun t => t.id == id) with
      | some task => toggleAfterLookup port now s1 vc.1 id vc.2.2 log0 (some task)
      | none =>
        let r1 := fetchTasks port vc.1
        match port.findAll with  -- getTasksUseCase.execute()
        | .error e =>
          toggleCatch port r1.state id (vc.2.2 ++ r1.calls ++ [.findAll]) (log0 ++ r1.errorLog) e
        | .ok refreshedTasks =>
          match refreshedTasks.find? (fun t => t.id == id) with
          | none =>
            toggleCatch port r1.state id (vc.2.2 ++ r1.calls ++ [.findAll]) (log0 ++ r1.errorLog)
              ("Task with ID " ++ id ++ " not found in storage")
          | some _ =>
            toggleAfterLookup port now s1 { r1.state with tasks := refreshedTasks } id
              (vc.2.2 ++ r1.calls ++ [.findAll]) (log0 ++ r1.errorLog) none

instance {ε α : Type} [DecidableEq ε] [DecidableEq α] : DecidableEq (Except ε α) := fun a b =>
  match a, b with
  | .ok x, .ok y =>
    if h : x = y then isTrue (by rw [h]) else isFalse (fun hh => by cases hh; exact h rfl)
  | .ok _, .error _ => isFalse (fun h => by cases h)
  | .error _, .ok _ => isFalse (fun h => by cases h)
  | .error x, .error y =>
    if h : x = y then isTrue (by rw [h]) else isFalse (fun hh => by cases hh; exact h rfl)

/-- Result of `generateReport`: the final state, the trace (a `.pdf` entry is
the PDF-generator invocation), and the outcome — this operation rethrows. -/
structure ReportResult where
  state : ProviderState
  calls : List PortCall
  result : Except String Unit
deriving Repr, DecidableEq

/-- `generateReport`: re-reads the tasks, filters out any record with a falsy
`id` or `title`, fails before touching the PDF generator when nothing
survives, and otherwise hands exactly the surviving records to it. -/
def generateReport (port : Port) (s : ProviderState) : ReportResult :=
  let s0 : ProviderState := { s with error := none }
  let vc := validateConsistency port s0
  match port.findAll with  -- getTasksUseCase.execute()
  | .error e =>
    { state := { vc.1 with error := some ("Failed to generate report: " ++ e) }
      calls := vc.2.2 ++ [.findAll]
      result := .error e }
  | .ok currentTasks =>
    let validTasks := currentTasks.filter (fun t => !(t.id == "") && !(t.title == ""))
    if validTasks.length = 0 then
      let msg := "No valid tasks found to generate report"
      { state := { vc.1 with error := some ("Failed to generate report: " ++ msg) }
        calls := vc.2.2 ++ [.findAll]
        result := .error msg }
    else
      { state := vc.1
        calls := vc.2.2 ++ [.findAll, .pdf validTasks]
        result := .ok () }

/-! ## Sample records used by the concrete theorems -/

def taskA : Task := { id := "a", title := "Task A" }
def taskB : Task := { id := "b", title := "Task B" }
def taskC : Task := { id := "c", title := "Task C" }

/-- A port whose reads see `[taskA, taskB]` and whose writes succeed. -/
def okPort : Port :=
  { findAll := .ok [taskA, taskB]
    findById := fun i => .ok ([taskA, taskB].find? (fun t => t.id == i))
    update := fun t => .ok t }

/-- A port whose reads see `[taskA, taskB]` and whose `update` always fails. -/
def failingUpdatePort : Port :=
  { findAll := .ok [taskA, taskB]
    findById := fun i => .ok ([taskA, taskB].find? (fun t => t.id == i))
    update := fun _ => .error "Storage quota exceeded" }

def overdueTask : Task :=
  { id := "t1", title := "T", completed := false, endDate := some "2024-06-09" }
def dueTodayTask : Task :=
  { id := "t2", title := "T", completed := false, endDate := some "2024-06-10" }
def dueTomorrowTask : Task :=
  { id := "t3", title := "T", completed := false, endDate := some "2024-06-11" }
def badDateTask : Task :=
  { id := "t4", title := "T", completed := false, endDate := some "not-a-date" }

/-! ## Claim theorems -/

/-- C1: while a `toggleCompletion(id)` call is pending (`id` is in the pending
set), a second `toggleTask(id)` call is a no-op: the state (in particular the
task's `completed` flag) is unchanged and the Persistence Port is not invoked
(empty call trace). -/
theorem toggleTask_pending_noop (port : Port) (now : Int) (s : ProviderState) (id : String)
    (h : s.pending.contains id = true) :
    toggleTask port now s id = { state := s, calls := [], errorLog := [] } := by
  have hm : id ∈ s.pending := by simpa using h
  simp [toggleTask, hm]

/-- C1 witness: a second toggle on `"a"` while `"a"` is pending leaves the
state untouched and the trace empty. -/
theorem toggleTask_pending_noop_witness :
    toggleTask okPort 0 { tasks := [taskA, taskB], pending := ["a"] } "a" =
      { state := { tasks := [taskA, taskB], pending := ["a"] }, calls := [], errorLog := [] } :=
  toggleTask_pending_noop okPort 0 { tasks := [taskA, taskB], pending := ["a"] } "a" (by decide)

/-- C4 counterexample: at `currentDate = 2024-06-10` and `endDate =
2024-06-09`, neither deadline derivation produces the text "overdue by 1
days" claimed by the spec: `getDeadlineInfo` special-cases the singular and
says "Overdue by 1 day", `getDeadlineStatus` says "1 day overdue". -/
theorem deadline_overdue_one_counterexample :
    (getDeadlineInfo day20240610 overdueTask).map (fun i => i.status.text) =
      some "Overdue by 1 day" ∧
    (getDeadlineStatus day20240610 overdueTask).map (fun i => i.text) =
      some "1 day overdue" ∧
    "Overdue by 1 day" ≠ "overdue by 1 days" ∧
    "1 day overdue" ≠ "overdue by 1 days" := by
  decide

/-- C4 (amended): at `currentDate = 2024-06-10`, both deadline derivations
classify `endDate = 2024-06-10` as due today and `endDate = 2024-06-11` as
due tomorrow; `endDate = 2024-06-09` is the one-day-overdue classification
(rendered "Overdue by 1 day" by `getDeadlineInfo` and "1 day overdue" by
`getDeadlineStatus`); and for every completed task whose `endDate` parses,
the status is "Completed" regardless of the date. -/
theorem deadline_boundary_classification (task : Task) (today : Nat) (e : String) (d : Nat)
    (hc : task.completed = true) (he : task.endDate = some e) (hp : parseISODate e = some d) :
    (getDeadlineInfo today task).map (fun i => i.status.text) = some "Completed" ∧
    (getDeadlineStatus today task).map (fun i => i.text) = some "Completed" ∧
    (getDeadlineInfo day20240610 dueTodayTask).map (fun i => i.status.text) = some "Due today" ∧
    (getDeadlineStatus day20240610 dueTodayTask).map (fun i => i.text) = some "Due today" ∧
    (getDeadlineInfo day20240610 overdueTask).map (fun i => i.status.text) =
      some "Overdue by 1 day" ∧
    (getDeadlineStatus day20240610 overdueTask).map (fun i => i.text) = some "1 day overdue" ∧
    (getDeadlineInfo day20240610 dueTomorrowTask).map (fun i => i.status.text) =
      some "Due tomorrow" ∧
    (getDeadlineStatus day20240610 dueTomorrowTask).map (fun i => i.text) =
      some "Due tomorrow" := by
  have hne : e ≠ "" := by
    intro hemp
    rw [hemp] at hp
    have : parseISODate "" = none := by decide
    rw [this] at hp
    cases hp
  refine ⟨?_, ?_, by decide, by decide, by decide, by decide, by decide, by decide⟩
  · simp [getDeadlineInfo, he, hne, hp, hc]
  · simp [getDeadlineStatus, he, hne, hp, hc]

/-- C4 witness: the completed-precedence part instantiated with a completed
task whose `endDate` is the long-overdue `2024-06-09`. -/
theorem deadline_boundary_classification_witness :
    (getDeadlineInfo day20240610
        { id := "w", title := "W", completed := true, endDate := some "2024-06-09" }).map
      (fun i => i.status.text) = some "Completed" ∧
    (getDeadlineStatus day20240610
        { id := "w", title := "W", completed := true, endDate := some "2024-06-09" }).map
      (fun i => i.text) = some "Completed" := by
  have h := deadline_boundary_classification
    { id := "w", title := "W", completed := true, endDate := some "2024-06-09" }
    day20240610 "2024-06-09" (daysFromCivil 2024 6 9) rfl rfl (by decide)
  exact ⟨h.1, h.2.1⟩

/-- C5 counterexample: an unparsable `endDate` does not yield the no-status
result in `getDeadlineStatus` (TaskItem): it yields the "Invalid date"
warning classification. -/
theorem deadline_unparsable_counterexample :
    getDeadlineStatus day20240610 badDateTask = some ⟨"warning", "Invalid date"⟩ ∧
    getDeadlineStatus day20240610 badDateTask ≠ none := by
  decide

/-- C5 (amended): both deadline derivations are total functions returning a
value for every input; a missing `endDate` yields the no-status result in
both, and an unparsable (nonempty) `endDate` yields the no-status result in
`getDeadlineInfo` but the "Invalid date" warning classification in
`getDeadlineStatus`. -/
theorem deadline_total_unparsable (today : Nat) (task : Task) (e : String)
    (he : task.endDate = some e) (hp : parseISODate e = none) (hne : e ≠ "") :
    getDeadlineInfo today task = none ∧
    getDeadlineStatus today task = some ⟨"warning", "Invalid date"⟩ ∧
    (∀ (day : Nat) (t : Task), t.endDate = none →
      getDeadlineInfo day t = none ∧ getDeadlineStatus day t = none) := by
  refine ⟨?_, ?_, ?_⟩
  · simp [getDeadlineInfo, he, hne, hp]
  · simp [getDeadlineStatus, he, hne, hp]
  · intro day t hnone
    constructor
    · simp [getDeadlineInfo, hnone]
    · simp [getDeadlineStatus, hnone]

/-- C5 witness: the unparsable-endDate case at `endDate = "not-a-date"`. -/
theorem deadline_total_unparsable_witness :
    getDeadlineInfo day20240610 badDateTask = none ∧
    getDeadlineStatus day20240610 badDateTask = some ⟨"warning", "Invalid date"⟩ :=
  ⟨(deadline_total_unparsable day20240610 badDateTask "not-a-date" rfl (by decide) (by decide)).1,
   (deadline_total_unparsable day20240610 badDateTask "not-a-date" rfl (by decide) (by decide)).2.1⟩

/-- A well-formed stored list passes the enhanced adapter's entry validation
unchanged. -/
theorem filter_valid_of_all (storage : List Task) (hwf : storage.all validItask = true) :
    storage.filter validItask = storage :=
  List.filter_eq_self.mpr (fun a ha => List.all_eq_true.mp hwf a ha)

/-- On a well-formed stored list, `safeReadStorage` reads every entry and
performs no self-heal write. -/
theorem safeReadStorage_of_all (storage : List Task) (hwf : storage.all validItask = true) :
    EnhancedRepo.safeReadStorage storage = (storage, storage) := by
  have h := filter_valid_of_all storage hwf
  simp [EnhancedRepo.safeReadStorage, h]

/-- C6 counterexample: the Synchronizer's create path performs no invariant
validation — `CreateTaskUseCase.execute` with an empty title (violating the
non-empty-title invariant) succeeds with no `ValidationError` and writes the
invalid record to durable storage. -/
theorem create_no_validation_counterexample :
    createTaskUseCaseExecute [] "uuid-1" 0 { title := "" } =
      ([{ id := "uuid-1", title := "" }],
       .ok { id := "uuid-1", title := "" }) := by
  decide

/-- C6 (amended): `CreateTaskUseCase.execute` validates nothing: for every
input (including invariant-violating ones) it stamps the record via
`Task.create` and persists it through the Persistence Port, returning it
unchanged; invariant validation lives only in the presentation layer. -/
theorem createTask_persists_unvalidated (storage : List Task) (freshId : String) (now : Int)
    (params : CreateTaskParams)
    (hwf : storage.all validItask = true)
    (hid : freshId ≠ "")
    (hfresh : storage.all (fun t => !(t.id == freshId)) = true) :
    createTaskUseCaseExecute storage freshId now params =
      (storage ++ [Task.create freshId now params], .ok (Task.create freshId now params)) := by
  have hread := safeReadStorage_of_all storage hwf
  have hdup : (storage.any (fun t => t.id == freshId)) = false := by
    rw [List.any_eq_false]
    intro t ht
    have := List.all_eq_true.mp hfresh t ht
    simpa using this
  simp [createTaskUseCaseExecute, EnhancedRepo.create, Task.create, hread, hid, hdup]

/-- C6 witness: an empty-description, empty-title input on one-element
storage is persisted as-is. -/
theorem createTask_persists_unvalidated_witness :
    createTaskUseCaseExecute [taskA] "uuid-2" 7 { title := "" } =
      ([taskA, { id := "uuid-2", title := "", createdAt := 7, updatedAt := 7 }],
       .ok { id := "uuid-2", title := "", createdAt := 7, updatedAt := 7 }) :=
  createTask_persists_unvalidated [taskA] "uuid-2" 7 { title := "" }
    (by decide) (by decide) (by decide)

/-- C7 counterexample: the plain local-storage adapter's `create` performs no
duplicate-id check: creating a record whose id `"a"` already exists succeeds
(no `DuplicateId` failure) and appends the duplicate to storage. -/
theorem simple_create_duplicate_counterexample :
    SimpleRepo.create [taskA] { id := "a", title := "Dup" } =
      .ok ([taskA, { id := "a", title := "Dup" }], { id := "a", title := "Dup" }) := by
  decide

/-- C7 (amended): the enhanced local-storage adapter's `create` fails (the
`DuplicateId` case, message "... already exists") when a record with the same
id is stored, leaving well-formed storage unchanged; otherwise it appends the
record, persists, and returns it unchanged.  The plain adapter appends
unconditionally. -/
theorem enhanced_create_spec (storage : List Task) (task : Task)
    (hwf : storage.all validItask = true) (hid : task.id ≠ "") :
    (storage.any (fun t => t.id == task.id) = true →
      EnhancedRepo.create storage task =
        (storage, .error ("Task with ID " ++ task.id ++ " already exists"))) ∧
    (storage.any (fun t => t.id == task.id) = false →
      EnhancedRepo.create storage task = (storage ++ [task], .ok task)) := by
  have hread := safeReadStorage_of_all storage hwf
  constructor
  · intro hdup
    simp [EnhancedRepo.create, hread, hid, hdup]
  · intro hdup
    simp [EnhancedRepo.create, hread, hid, hdup]

/-- C7 witness: duplicate id `"a"` is rejected with storage unchanged, and a
fresh id `"c"` is appended and returned unchanged. -/
theorem enhanced_create_spec_witness :
    EnhancedRepo.create [taskA, taskB] { id := "a", title := "Dup" } =
      ([taskA, taskB], .error "Task with ID a already exists") ∧
    EnhancedRepo.create [taskA, taskB] taskC = ([taskA, taskB, taskC], .ok taskC) :=
  ⟨by
    have h := (enhanced_create_spec [taskA, taskB] { id := "a", title := "Dup" }
      (by decide) (by decide)).1 (by decide)
    simpa using h,
   by
    have h := (enhanced_create_spec [taskA, taskB] taskC (by decide) (by decide)).2 (by decide)
    simpa using h⟩

/-- C8 counterexample: the plain local-storage adapter's `delete` performs no
existence check: deleting the absent id `"zzz"` succeeds (no `NotFound`
failure) and leaves storage unchanged. -/
theorem simple_delete_missing_counterexample :
    SimpleRepo.delete [taskA] "zzz" = .ok [taskA] := by
  decide

/-- C8 (amended): the enhanced local-storage adapter's `delete` fails (the
`NotFound` case, message "... not found for deletion") when no record with
the id is stored, leaving well-formed storage unchanged; otherwise it removes
exactly the records with that id and persists the rest.  The plain adapter
removes silently with no existence check. -/
theorem enhanced_delete_spec (storage : List Task) (id : String)
    (hwf : storage.all validItask = true) (hid : id ≠ "") :
    (storage.any (fun t => t.id == id) = false →
      EnhancedRepo.delete storage id =
        (storage, .error ("Task with ID " ++ id ++ " not found for deletion"))) ∧
    (storage.any (fun t => t.id == id) = true →
      EnhancedRepo.delete storage id =
        (storage.filter (fun t => !(t.id == id)), .ok ())) := by
  have hread := safeReadStorage_of_all storage hwf
  constructor
  · intro habs
    simp [EnhancedRepo.delete, hread, hid, habs]
  · intro hpres
    simp [EnhancedRepo.delete, hread, hid, hpres]

/-- C8 witness: deleting the absent `"zzz"` from `[taskA, taskB]` is the
`NotFound` failure with storage unchanged, and deleting `"a"` removes exactly
`taskA`. -/
theorem enhanced_delete_spec_witness :
    EnhancedRepo.delete [taskA, taskB] "zzz" =
      ([taskA, taskB], .error "Task with ID zzz not found for deletion") ∧
    EnhancedRepo.delete [taskA, taskB] "a" = ([taskB], .ok ()) :=
  ⟨by
    have h := (enhanced_delete_spec [taskA, taskB] "zzz" (by decide) (by decide)).1 (by decide)
    simpa using h,
   by
    have h := (enhanced_delete_spec [taskA, taskB] "a" (by decide) (by decide)).2 (by decide)
    simpa using h⟩

/-- C9: when every supplied parameter equals the stored task's current value,
`UpdateTaskUseCase.execute` detects no change: the Persistence Port `update`
is never invoked (the trace is just the lookup) and the original task is
returned with its `updatedAt` untouched. -/
theorem updateTask_noop_preserves (port : Port) (now : Int) (id : String) (t : Task)
    (params : UpdateParams)
    (hById : port.findById id = .ok (some t))
    (htitle : ∀ v, params.title = some v → v = t.title)
    (hdesc : ∀ v, params.description = some v → v = t.description)
    (hcomp : ∀ v, params.completed = some v → v = t.completed)
    (hpic : ∀ v, params.pic = some v → some v = t.pic)
    (hstart : ∀ v, params.startDate = some v → some v = t.startDate)
    (hend : ∀ v, params.endDate = some v → some v = t.endDate) :
    updateTaskExecute port now id params = (.ok t, [.findById id]) ∧
    (∀ u, (.update u : PortCall) ∉ (updateTaskExecute port now id params).2) := by
  obtain ⟨pt, pd, pc, pp, ps, pe⟩ := params
  have h1 : updateTaskExecute port now id ⟨pt, pd, pc, pp, ps, pe⟩ = (.ok t, [.findById id]) := by
    cases pt with
    | some v =>
      have hv := htitle v rfl
      cases pd with
      | some w =>
        have hw := hdesc w rfl
        cases pc with
        | some x =>
          have hx := hcomp x rfl
          cases pp with
          | some y =>
            have hy := hpic y rfl
            cases ps with
            | some z =>
              have hz := hstart z rfl
              cases pe with
              | some q =>
                have hq := hend q rfl
                simp [updateTaskExecute, hById, hv, hw, hx, hy.symm, hz.symm, hq.symm]
              | none => simp [updateTaskExecute, hById, hv, hw, hx, hy.symm, hz.symm]
            | none =>
              cases pe with
              | some q =>
                have hq := hend q rfl
                simp [updateTaskExecute, hById, hv, hw, hx, hy.symm, hq.symm]
              | none => simp [updateTaskExecute, hById, hv, hw, hx, hy.symm]
          | none =>
            cases ps with
            | some z =>
              have hz := hstart z rfl
              cases pe with
              | some q =>
                have hq := hend q rfl
                simp [updateTaskExecute, hById, hv, hw, hx, hz.symm, hq.symm]
              | none => simp [updateTaskExecute, hById, hv, hw, hx, hz.symm]
            | none =>
              cases pe with
              | some q =>
                have hq := hend q rfl
                simp [updateTaskExecute, hById, hv, hw, hx, hq.symm]
              | none => simp [updateTaskExecute, hById, hv, hw, hx]
        | none =>
          cases pp with
          | some y =>
            have hy := hpic y rfl
            cases ps with
            | some z =>
              have hz := hstart z rfl
              cases pe with
              | some q =>
                have hq := hend q rfl
                simp [updateTaskExecute, hById, hv, hw, hy.symm, hz.symm, hq.symm]
              | none => simp [updateTaskExecute, hById, hv, hw, hy.symm, hz.symm]
            | none =>
              cases pe with
              | some q =>
                have hq := hend q rfl
                simp [updateTaskExecute, hById, hv, hw, hy.symm, hq.symm]
              | none => simp [updateTaskExecute, hById, hv, hw, hy.symm]
          | none =>
            cases ps with
            | some z =>
              have hz := hstart z rfl
              cases pe with
              | some q =>
                have hq := hend q rfl
                simp [updateTaskExecute, hById, hv, hw, hz.symm, hq.symm]
              | none => simp [updateTaskExecute, hById, hv, hw, hz.symm]
            | none =>
              cases pe with
              | some q =>
                have hq := hend q rfl
                simp [updateTaskExecute, hById, hv, hw, hq.symm]
              | none => simp [updateTaskExecute, hById, hv, hw]
      | none =>
        cases pc with
        | some x =>
          have hx := hcomp x rfl
          cases pp with
          | some y =>
            have hy := hpic y rfl
            cases ps with
            | some z =>
              have hz := hstart z rfl
              cases pe with
              | some q =>
                have hq := hend q rfl
                simp [updateTaskExecute, hById, hv, hx, hy.symm, hz.symm, hq.symm]
              | none => simp [updateTaskExecute, hById, hv, hx, hy.symm, hz.symm]
            | none =>
              cases pe with
              | some q =>
                have hq := hend q rfl
                simp [updateTaskExecute, hById, hv, hx, hy.symm, hq.symm]
              | none => simp [updateTaskExecute, hById, hv, hx, hy.symm]
          | none =>
            cases ps with
            | some z =>
              have hz := hstart z rfl
              cases pe with
              | some q =>
                have hq := hend q rfl
                simp [updateTaskExecute, hById, hv, hx, hz.symm, hq.symm]
              | none => simp [updateTaskExecute, hById, hv, hx, hz.symm]
            | none =>
              cases pe with
              | some q =>
                have hq := hend q rfl
                simp [updateTaskExecute, hById, hv, hx, hq.symm]
              | none => simp [updateTaskExecute, hById, hv, hx]
        | none =>
          cases pp with
          | some y =>
            have hy := hpic y rfl
            cases ps with
            | some z =>
              have hz := hstart z rfl
              cases pe with
              | some q =>
                have hq := hend q rfl
                simp [updateTaskExecute, hById, hv, hy.symm, hz.symm, hq.symm]
              | none => simp [updateTaskExecute, hById, hv, hy.symm, hz.symm]
            | none =>
              cases pe with
              | some q =>
                have hq := hend q rfl
                simp [updateTaskExecute, hById, hv, hy.symm, hq.symm]
              | none => simp [updateTaskExecute, hById, hv, hy.symm]
          | none =>
            cases ps with
            | some z =>
              have hz := hstart z rfl
              cases pe with
              | some q =>
                have hq := hend q rfl
                simp [updateTaskExecute, hById, hv, hz.symm, hq.symm]
              | none => simp [updateTaskExecute, hById, hv, hz.symm]
            | none =>
              cases pe with
              | some q =>
                have hq := hend q rfl
                simp [updateTaskExecute, hById, hv, hq.symm]
              | none => simp [updateTaskExecute, hById, hv]
    | none =>
      cases pd with
      | some w =>
        have hw := hdesc w rfl
        cases pc with
        | some x =>
          have hx := hcomp x rfl
          cases pp with
          | some y =>
            have hy := hpic y rfl
            cases ps with
            | some z =>
              have hz := hstart z rfl
              cases pe with
              | some q =>
                have hq := hend q rfl
                simp [updateTaskExecute, hById, hw, hx, hy.symm, hz.symm, hq.symm]
              | none => simp [updateTaskExecute, hById, hw, hx, hy.symm, hz.symm]
            | none =>
              cases pe with
              | some q =>
                have hq := hend q rfl
                simp [updateTaskExecute, hById, hw, hx, hy.symm, hq.symm]
              | none => simp [updateTaskExecute, hById, hw, hx, hy.symm]
          | none =>
            cases ps with
            | some z =>
              have hz := hstart z rfl
              cases pe with
              | some q =>
                have hq := hend q rfl
                simp [updateTaskExecute, hById, hw, hx, hz.symm, hq.symm]
              | none => simp [updateTaskExecute, hById, hw, hx, hz.symm]
            | none =>
              cases pe with
              | some q =>
                have hq := hend q rfl
                simp [updateTaskExecute, hById, hw, hx, hq.symm]
              | none => simp [updateTaskExecute, hById, hw, hx]
        | none =>
          cases pp with
          | some y =>
            have hy := hpic y rfl
            cases ps with
            | some z =>
              have hz := hstart z rfl
              cases pe with
              | some q =>
                have hq := hend q rfl
                simp [updateTaskExecute, hById, hw, hy.symm, hz.symm, hq.symm]
              | none => simp [updateTaskExecute, hById, hw, hy.symm, hz.symm]
            | none =>
              cases pe with
              | some q =>
                have hq := hend q rfl
                simp [updateTaskExecute, hById, hw, hy.symm, hq.symm]
              | none => simp [updateTaskExecute, hById, hw, hy.symm]
          | none =>
            cases ps with
            | some z =>
              have hz := hstart z rfl
              cases pe with
              | some q =>
                have hq := hend q rfl
                simp [updateTaskExecute, hById, hw, hz.symm, hq.symm]
              | none => simp [updateTaskExecute, hById, hw, hz.symm]
            | none =>
              cases pe with
              | some q =>
                have hq := hend q rfl
                simp [updateTaskExecute, hById, hw, hq.symm]
              | none => simp [updateTaskExecute, hById, hw]
      | none =>
        cases pc with
        | some x =>
          have hx := hcomp x rfl
          cases pp with
          | some y =>
            have hy := hpic y rfl
            cases ps with
            | some z =>
              have hz := hstart z rfl
              cases pe with
              | some q =>
                have hq := hend q rfl
                simp [updateTaskExecute, hById, hx, hy.symm, hz.symm, hq.symm]
              | none => simp [updateTaskExecute, hById, hx, hy.symm, hz.symm]
            | none =>
              cases pe with
              | some q =>
                have hq := hend q rfl
                simp [updateTaskExecute, hById, hx, hy.symm, hq.symm]
              | none => simp [updateTaskExecute, hById, hx, hy.symm]
          | none =>
            cases ps with
            | some z =>
              have hz := hstart z rfl
              cases pe with
              | some q =>
                have hq := hend q rfl
                simp [updateTaskExecute, hById, hx, hz.symm, hq.symm]
              | none => simp [updateTaskExecute, hById, hx, hz.symm]
            | none =>
              cases pe with
              | some q =>
                have hq := hend q rfl
                simp [updateTaskExecute, hById, hx, hq.symm]
              | none => simp [updateTaskExecute, hById, hx]
        | none =>
          cases pp with
          | some y =>
            have hy := hpic y rfl
            cases ps with
            | some z =>
              have hz := hstart z rfl
              cases pe with
              | some q =>
                have hq := hend q rfl
                simp [updateTaskExecute, hById, hy.symm, hz.symm, hq.symm]
              | none => simp [updateTaskExecute, hById, hy.symm, hz.symm]
            | none =>
              cases pe with
              | some q =>
                have hq := hend q rfl
                simp [updateTaskExecute, hById, hy.symm, hq.symm]
              | none => simp [updateTaskExecute, hById, hy.symm]
          | none =>
            cases ps with
            | some z =>
              have hz := hstart z rfl
              cases pe with
              | some q =>
                have hq := hend q rfl
                simp [updateTaskExecute, hById, hz.symm, hq.symm]
              | none => simp [updateTaskExecute, hById, hz.symm]
            | none =>
              cases pe with
              | some q =>
                have hq := hend q rfl
                simp [updateTaskExecute, hById, hq.symm]
              | none => simp [updateTaskExecute, hById]
  refine ⟨h1, ?_⟩
  intro u hu
  rw [h1] at hu
  simp at hu

/-- C9 witness: supplying the stored values of `taskA` (title and completed)
invokes no `update` and returns `taskA` with its original `updatedAt`. -/
theorem updateTask_noop_preserves_witness :
    updateTaskExecute okPort 99 "a" { title := some "Task A", completed := some false } =
      (.ok taskA, [.findById "a"]) :=
  (updateTask_noop_preserves okPort 99 "a" taskA
    { title := some "Task A", completed := some false }
    (by decide)
    (by intro v hv; cases hv; rfl)
    (by intro v hv; simp at hv)
    (by intro v hv; cases hv; rfl)
    (by intro v hv; simp at hv)
    (by intro v hv; simp at hv)
    (by intro v hv; simp at hv)).1

/-- Every task's id occurs in the id projection of its own list, so the
mismatch detector of `validateConsistency` reports nothing when cache and
fresh read coincide. -/
theorem any_id_not_self (l : List Task) :
    (l.any fun t => !((l.map (fun x => x.id)).contains t.id)) = false := by
  rw [List.any_eq_false]
  intro t ht
  simp only [Bool.not_eq_true', Bool.not_eq_true]
  have : t.id ∈ l.map (fun x => x.id) := List.mem_map_of_mem (fun x => x.id) ht
  simpa using this

/-- C3: when the cached id set and the freshly read id set differ by at least
one id on either side, `validateConsistency` (the spec's `reconcile()`)
replaces the cache wholesale with the fresh set and returns it. -/
theorem validateConsistency_resync (port : Port) (s : ProviderState) (fresh : List Task)
    (hinit : s.initialized = true)
    (hAll : port.findAll = .ok fresh)
    (hdiff : (∃ t ∈ fresh, t.id ∉ s.tasks.map (fun x => x.id)) ∨
             (∃ t ∈ s.tasks, t.id ∉ fresh.map (fun x => x.id))) :
    (validateConsistency port s).1.tasks = fresh ∧
    (validateConsistency port s).2.1 = some fresh := by
  have hcond : (∃ x ∈ fresh, ∀ y ∈ s.tasks, ¬ y.id = x.id) ∨
               (∃ x ∈ s.tasks, ∀ y ∈ fresh, ¬ y.id = x.id) := by
    rcases hdiff with ⟨t, ht, hnot⟩ | ⟨t, ht, hnot⟩
    · exact Or.inl ⟨t, ht, fun y hy hEq => hnot (hEq ▸ List.mem_map_of_mem (fun x => x.id) hy)⟩
    · exact Or.inr ⟨t, ht, fun y hy hEq => hnot (hEq ▸ List.mem_map_of_mem (fun x => x.id) hy)⟩
  simp [validateConsistency, hinit, hAll, hcond]

/-- C3 witness: with cache `[A, B]` and a Persistence Port now returning
`[B, C]`, reconciliation yields cache `[B, C]`. -/
theorem validateConsistency_resync_witness :
    (validateConsistency
        { findAll := .ok [taskB, taskC]
          findById := fun _ => .ok none
          update := fun t => .ok t }
        { tasks := [taskA, taskB] }).1.tasks = [taskB, taskC] :=
  (validateConsistency_resync
    { findAll := .ok [taskB, taskC], findById := fun _ => .ok none, update := fun t => .ok t }
    { tasks := [taskA, taskB] } [taskB, taskC] rfl rfl
    (Or.inl ⟨taskC, by decide, by decide⟩)).1

/-- C2 counterexample: with a cache of `[taskA, taskB]` in sync with storage
and a Persistence Port whose `update` fails, `toggleTask "a"` records the
failure message transiently but finishes with `error = none` — the recovery
`fetchTasks` resets the error it had just set, and (by construction of
`toggleTask`, whose catch block rethrows nothing) the caller's promise
resolves: the error is not surfaced to the caller after the operation. -/
theorem toggleTask_error_swallowed_counterexample :
    (toggleTask failingUpdatePort 0 { tasks := [taskA, taskB] } "a").errorLog.contains
        (some "Failed to update task: Storage quota exceeded") = true ∧
    (toggleTask failingUpdatePort 0 { tasks := [taskA, taskB] } "a").state.error = none := by
  decide

/-- C2 (amended): when the Persistence Port `update` fails during
`toggleTask(id)` on a cache in sync with storage, the synchronizer performs
exactly one recovery refresh after the failed update (trace `[findAll,
findById, update, findAll]`), leaves the cache equal to the fresh `findAll`
result, removes `id` from the pending set, and records the failure message,
which the recovery refresh immediately resets to `null`; nothing is rethrown
to the caller. -/
theorem toggleTask_update_failure (port : Port) (now : Int) (s : ProviderState)
    (id : String) (fresh : List Task) (t : Task) (m : String)
    (hpend : s.pending.contains id = false)
    (hinit : s.initialized = true)
    (hAll : port.findAll = .ok fresh)
    (hById : port.findById id = .ok (fresh.find? (fun x => x.id == id)))
    (ht : fresh.find? (fun x => x.id == id) = some t)
    (hsync : s.tasks = fresh)
    (hUpd : ∀ u, port.update u = .error m) :
    toggleTask port now s id =
      { state := { tasks := fresh, loading := false, error := none,
                   pending := (id :: s.pending).filter (fun x => x ≠ id), initialized := true }
        calls := [.findAll, .findById id,
                  .update { t with completed := !t.completed, updatedAt := now }, .findAll]
        errorLog := [none, some ("Failed to update task: " ++ m), none] } ∧
    ((id :: s.pending).filter (fun x => x ≠ id)).contains id = false := by
  have hm : id ∉ s.pending := by simpa using hpend
  have hbne : (!t.completed) ≠ t.completed := by cases t.completed <;> simp
  have hndiff : ¬ ((∃ x ∈ fresh, ∀ y ∈ fresh, ¬ y.id = x.id) ∨
                   (∃ x ∈ fresh, ∀ y ∈ fresh, ¬ y.id = x.id)) := by
    rintro (⟨x, hx, hall⟩ | ⟨x, hx, hall⟩) <;> exact hall x hx rfl
  constructor
  · simp [toggleTask, validateConsistency, toggleAfterLookup, toggleCatch, fetchTasks,
          updateTaskExecute, hm, hinit, hAll, hById, ht, hsync, hUpd, hndiff, hbne]
  · simp

/-- C2 witness: the amended behaviour at the concrete failing port. -/
theorem toggleTask_update_failure_witness :
    toggleTask failingUpdatePort 5 { tasks := [taskA, taskB] } "a" =
      { state := { tasks := [taskA, taskB], loading := false, error := none,
                   pending := (["a"] : List String).filter (fun x => x ≠ "a"),
                   initialized := true }
        calls := [.findAll, .findById "a",
                  .update { taskA with completed := !taskA.completed, updatedAt := 5 },
                  .findAll]
        errorLog := [none, some ("Failed to update task: " ++ "Storage quota exceeded"),
                     none] } ∧
    ((["a"] : List String).filter (fun x => x ≠ "a")).contains "a" = false :=
  toggleTask_update_failure failingUpdatePort 5 { tasks := [taskA, taskB] } "a"
    [taskA, taskB] taskA "Storage quota exceeded" (by decide) rfl rfl rfl (by decide) rfl
    (fun _ => rfl)

/-- `validateConsistency` invokes at most the Persistence Port read: its
trace never contains a PDF-generator invocation. -/
theorem validateConsistency_calls (port : Port) (s : ProviderState) :
    (validateConsistency port s).2.2 = [] ∨ (validateConsistency port s).2.2 = [.findAll] := by
  unfold validateConsistency
  split
  · exact Or.inl rfl
  · split
    · exact Or.inr rfl
    · right
      dsimp only
      split <;> rfl

/-- C10: `generateReport` passes the PDF generator only tasks with non-empty
id and non-empty title, and when no task survives the filter (in particular
on an empty task list) it fails with "No valid tasks found to generate
report" without ever invoking the PDF generator. -/
theorem generateReport_valid_filter (port : Port) (s : ProviderState) (ts : List Task)
    (hAll : port.findAll = .ok ts) :
    (∀ l, PortCall.pdf l ∈ (generateReport port s).calls →
       ∀ t ∈ l, t.id ≠ "" ∧ t.title ≠ "") ∧
    (ts.filter (fun t => !(t.id == "") && !(t.title == "")) = [] →
       (generateReport port s).result = .error "No valid tasks found to generate report" ∧
       ∀ l, PortCall.pdf l ∉ (generateReport port s).calls) := by
  have hvc := validateConsistency_calls port { s with error := none }
  by_cases hz : (ts.filter (fun t => !(t.id == "") && !(t.title == ""))).length = 0
  · have hfe : ts.filter (fun t => !(t.id == "") && !(t.title == "")) = [] :=
      List.length_eq_zero.mp hz
    constructor
    · intro l hl
      exfalso
      simp only [generateReport, hAll, hz, if_pos] at hl
      rcases hvc with h | h <;> rw [h] at hl <;> simp at hl
    · intro _
      constructor
      · simp [generateReport, hAll, hz]
      · intro l hl
        simp only [generateReport, hAll, hz, if_pos] at hl
        rcases hvc with h | h <;> rw [h] at hl <;> simp at hl
  · constructor
    · intro l hl t htl
      simp only [generateReport, hAll, hz, if_neg] at hl
      have hlv : l = ts.filter (fun t => !(t.id == "") && !(t.title == "")) := by
        rcases hvc with h | h <;> rw [h] at hl <;> simpa using hl
      rw [hlv] at htl
      have hprop := List.of_mem_filter htl
      constructor
      · intro hEq
        rw [hEq] at hprop
        simp at hprop
      · intro hEq
        rw [hEq] at hprop
        simp at hprop
    · intro hfe
      exact absurd (by rw [hfe]; rfl) hz

/-- A port over an empty storage. -/
def emptyPort : Port :=
  { findAll := .ok []
    findById := fun _ => .ok none
    update := fun t => .ok t }

/-- C10 witness: with an empty task list nothing survives the filter, report
generation fails with the documented message, and the PDF generator is never
invoked. -/
theorem generateReport_valid_filter_witness :
    (∀ l, PortCall.pdf l ∈ (generateReport emptyPort { tasks := [] }).calls →
       ∀ t ∈ l, t.id ≠ "" ∧ t.title ≠ "") ∧
    (([] : List Task).filter (fun t => !(t.id == "") && !(t.title == "")) = [] →
       (generateReport emptyPort { tasks := [] }).result =
         .error "No valid tasks found to generate report" ∧
       ∀ l, PortCall.pdf l ∉ (generateReport emptyPort { tasks := [] }).calls) :=
  generateReport_valid_filter emptyPort { tasks := [] } [] rfl

end Cybermax
